import Mathlib

/-!
Shallow embedding of the analytical core of
`src/report/projet1/generate-graphs.py`.

Modelling conventions:
- a row of `performance.csv` is a `Record`; numeric columns are modelled
  as `ℚ` (the script converts them to Python floats);
- a pandas `Series.mean()` over an empty selection evaluates to `NaN`;
  we model that result as `none : Option ℚ` (`meanOpt`), and the script's
  explicit `x if not np.isnan(x) else 0` guard as `Option.getD _ 0`
  (`meanOrZero`);
- pandas `str.contains(sub)` is substring containment, modelled by
  `strContains`;
- pandas `DataFrame.idxmin` returns the first row (in input order)
  attaining the minimum of the column; it is modelled by `idxminBy`,
  which returns the first element of the list attaining the global
  minimum of `f`.
-/

structure Record where
  algorithm : String
  scenario : String
  pattern : String
  textLength : ℚ
  buildTime : ℚ
  matchTime : ℚ
  totalTime : ℚ
  memoryUsed : ℚ
  structureSize : ℚ
  structureNodes : ℚ
deriving DecidableEq

/-- Whether the first list is a prefix of the second. -/
def listStartsWith : List Char → List Char → Bool
  | [], _ => true
  | _ :: _, [] => false
  | a :: as, b :: bs => a == b && listStartsWith as bs

/-- Whether the first list occurs as a contiguous sublist of the second. -/
def listContainsSub (needle : List Char) : List Char → Bool
  | [] => needle.isEmpty
  | c :: cs => listStartsWith needle (c :: cs) || listContainsSub needle cs

/-- Substring containment, modelling pandas `hay.str.contains(needle)`
and Python `needle in hay`. -/
def strContains (hay needle : String) : Bool :=
  listContainsSub needle.toList hay.toList

/-- Mean of a list of rationals; `none` models the `NaN` that pandas
returns for the mean of an empty selection. -/
def meanOpt (l : List ℚ) : Option ℚ :=
  if l.isEmpty then none else some (l.sum / l.length)

/-- The script's `x if not np.isnan(x) else 0` applied to a mean
(lines 192-193 of generate-graphs.py). -/
def meanOrZero (l : List ℚ) : ℚ :=
  (meanOpt l).getD 0

/-- Model of pandas `idxmin` followed by row lookup: the first element of
the list (input row order) attaining the global minimum of `f`. -/
def idxminBy (f : Record → ℚ) (l : List Record) : Option Record :=
  l.find? (fun x => l.all (fun y => decide (f x ≤ f y)))

/-! Graph 1 (lines 40-81): KMP vs Boyer-Moore on literal patterns. -/

/-- Line 40-43: rows whose algorithm is KMP or Boyer-Moore and whose
scenario label contains "Literal". -/
def literal_patterns (t : List Record) : List Record :=
  t.filter (fun r =>
    (r.algorithm == "KMP" || r.algorithm == "Boyer-Moore")
      && strContains r.scenario "Literal")

/-- Line 73: `patterns_to_show = ['abc', 'constitution']`. -/
def patterns_to_show : List String := ["abc", "constitution"]

/-- Line 74: `literal_patterns` restricted to `patterns_to_show`. -/
def data_subset (t : List Record) : List Record :=
  (literal_patterns t).filter (fun r => patterns_to_show.contains r.pattern)

/-- Lines 78-79: per requested pattern, mean KMP match time over
`data_subset`; an empty selection gives `none` (pandas `NaN`). -/
def kmp_times (t : List Record) : List (Option ℚ) :=
  patterns_to_show.map (fun p =>
    meanOpt (((data_subset t).filter
      (fun r => r.pattern == p && r.algorithm == "KMP")).map (·.matchTime)))

/-! Graph 2 (lines 105-137): structure sizes of NFA / DFA / min-DFA. -/

/-- Lines 105-109: automaton rows with strictly positive structure size
whose scenario label does not contain "prefilter". -/
def structure_data (t : List Record) : List Record :=
  t.filter (fun r =>
    (r.algorithm == "NFA" || r.algorithm == "DFA" || r.algorithm == "min-DFA")
      && decide (0 < r.structureSize)
      && !(strContains r.scenario "prefilter"))

/-- Lines 114-115: the four scenarios shown in graph 2. -/
def scenarios_to_show : List String :=
  ["Short Literal - Small Text", "Long Literal - Small Text",
   "Simple Regex - Dot", "Complex Regex - Alternation"]

/-- Line 116: `structure_data` restricted to `scenarios_to_show`. -/
def data_nodes (t : List Record) : List Record :=
  (structure_data t).filter (fun r => scenarios_to_show.contains r.scenario)

/-- Lines 122-123: per scenario in `scenarios_to_show`, mean node count
for the given algorithm; an empty selection gives `none` (pandas `NaN`). -/
def nodes (t : List Record) (algo : String) : List (Option ℚ) :=
  scenarios_to_show.map (fun s =>
    meanOpt (((data_nodes t).filter
      (fun r => r.scenario == s && r.algorithm == algo)).map (·.structureNodes)))

/-! Graph 3 (lines 162-250): prefilter impact per text size. -/

/-- Line 163: the fixed analysis pattern. -/
def test_pattern : String := "a.c"

/-- Lines 167-171: rows of the base algorithm or its "(with prefilter)"
variant, in a "Regex" scenario, with the fixed pattern. -/
def prefilter_data (base : String) (t : List Record) : List Record :=
  t.filter (fun r =>
    (r.algorithm == base || r.algorithm == base ++ " (with prefilter)")
      && strContains r.scenario "Regex"
      && r.pattern == test_pattern)

/-- Line 177: `Has Prefilter` column — the algorithm name contains
"prefilter". -/
def hasPrefilter (r : Record) : Bool :=
  strContains r.algorithm "prefilter"

/-- Line 178: `Text Size (KB)` column — text length divided by 1024. -/
def textSizeKB (r : Record) : ℚ :=
  r.textLength / 1024

/-- Line 181: sorted distinct text sizes of the filtered subset. -/
def text_sizes (pd : List Record) : List ℚ :=
  List.insertionSort (· ≤ ·) ((pd.map textSizeKB).dedup)

/-- Lines 186-192: mean total time of the non-prefiltered rows at a given
text size, with pandas `NaN` (empty selection) replaced by `0`. -/
def withoutTimeAt (pd : List Record) (sz : ℚ) : ℚ :=
  meanOrZero ((pd.filter
    (fun r => decide (textSizeKB r = sz) && !(hasPrefilter r))).map (·.totalTime))

/-- Lines 186-193: mean total time of the prefiltered rows at a given
text size, with pandas `NaN` (empty selection) replaced by `0`. -/
def withTimeAt (pd : List Record) (sz : ℚ) : ℚ :=
  meanOrZero ((pd.filter
    (fun r => decide (textSizeKB r = sz) && hasPrefilter r)).map (·.totalTime))

/-- Lines 216-223: the percentage gain for one text size:
`(without - with) / without * 100` when `without > 0`, else `0`. -/
def gainPct (without withPf : ℚ) : ℚ :=
  if 0 < without then (without - withPf) / without * 100 else 0

/-- The per-text-size tuples `(text_size_kb, without_ms, with_ms, gain_pct)`
emitted by the prefilter-impact analysis (lines 181-223). -/
def prefilterTuples (base : String) (t : List Record) : List (ℚ × ℚ × ℚ × ℚ) :=
  let pd := prefilter_data base t
  (text_sizes pd).map (fun sz =>
    (sz, withoutTimeAt pd sz, withTimeAt pd sz,
      gainPct (withoutTimeAt pd sz) (withTimeAt pd sz)))

/-! Graph 6 (lines 380-397): decision matrix. -/

/-- Lines 380-381: distinct scenario labels of the input, in first-seen
order, excluding labels containing "prefilter". -/
def scenarios_all (t : List Record) : List String :=
  ((t.map (·.scenario)).dedup).filter (fun s => !(strContains s "prefilter"))

/-- Line 386: the candidate rows for a scenario — its rows whose algorithm
name does not contain "prefilter". -/
def scenarioCandidates (t : List Record) (s : String) : List Record :=
  t.filter (fun r => r.scenario == s && !(strContains r.algorithm "prefilter"))

/-- Lines 387-391: the winning algorithm for a scenario, `"N/A"` when the
candidate set is empty. -/
def bestAlgoFor (t : List Record) (s : String) : String :=
  match idxminBy (·.totalTime) (scenarioCandidates t s) with
  | some r => r.algorithm
  | none => "N/A"

/-- Lines 384-397: one `(scenario, best algorithm)` entry per retained
scenario. -/
def decisionMatrix (t : List Record) : List (String × String) :=
  (scenarios_all t).map (fun s => (s, bestAlgoFor t s))

/-! Concrete tables used to instantiate the theorems below. -/

/-- Build a record from the fields the analyses read, other numeric
columns zero. -/
def mkRow (a s p : String) (tl tt : ℚ) : Record :=
  { algorithm := a, scenario := s, pattern := p, textLength := tl,
    buildTime := 0, matchTime := 0, totalTime := tt,
    memoryUsed := 0, structureSize := 0, structureNodes := 0 }

/-- One plain NFA row in a Regex scenario with the analysis pattern. -/
def tblNfa : List Record := [mkRow "NFA" "Simple Regex - Dot" "a.c" 1024 10]

/-- One prefiltered NFA row in a Regex scenario with the analysis
pattern; no plain row at this text size. -/
def tblPrefOnly : List Record :=
  [mkRow "NFA (with prefilter)" "Simple Regex - Dot" "a.c" 2048 5]

/-- Two rows of one scenario with equal minimal total time. -/
def tblTie : List Record :=
  [mkRow "KMP" "Short Literal - Small Text" "b" 1 5,
   mkRow "Boyer-Moore" "Short Literal - Small Text" "b" 1 5]

/-- One row whose scenario label contains "prefilter". -/
def tblPrefScenario : List Record :=
  [mkRow "NFA" "Regex with prefilter - Small" "a.c" 1024 10]

/-- One Boyer-Moore row on a requested literal pattern; no KMP row. -/
def tblNoKmp : List Record :=
  [mkRow "Boyer-Moore" "Short Literal - Small Text" "abc" 1 5]

/-- One KMP literal row; the prefilter-impact filter selects nothing. -/
def tblNoRegex : List Record :=
  [mkRow "KMP" "Short Literal - Small Text" "b" 1 5]

/-- One NFA row with a strictly positive structure size. -/
def rowStruct : Record :=
  { algorithm := "NFA", scenario := "Simple Regex - Dot", pattern := "a.c",
    textLength := 1024, buildTime := 0, matchTime := 0, totalTime := 10,
    memoryUsed := 0, structureSize := 2, structureNodes := 7 }

/-- A two-row table mixing a measured structure size with the `0`
"not measured" sentinel. -/
def tblStruct : List Record :=
  [rowStruct, mkRow "DFA" "Simple Regex - Dot" "a.c" 1024 10]

/-! Helper lemmas about `List.find?` and `idxminBy`. -/

/-- A successful `find?` splits the list at the first element satisfying
the predicate. -/
theorem find?_split {α : Type} {p : α → Bool} :
    ∀ {l : List α} {r : α}, l.find? p = some r →
      p r = true ∧ ∃ l₁ l₂, l = l₁ ++ r :: l₂ ∧ ∀ x ∈ l₁, p x = false := by
  intro l
  induction l with
  | nil => intro r h; simp [List.find?] at h
  | cons a as ih =>
    intro r h
    rw [List.find?_cons] at h
    cases hpa : p a with
    | true =>
      rw [hpa] at h
      cases h
      exact ⟨hpa, [], as, rfl, by intro x hx; cases hx⟩
    | false =>
      rw [hpa] at h
      obtain ⟨hr, l₁, l₂, heq, hfail⟩ := ih h
      refine ⟨hr, a :: l₁, l₂, by rw [heq, List.cons_append], ?_⟩
      intro x hx
      rcases List.mem_cons.mp hx with rfl | hx
      · exact hpa
      · exact hfail x hx

/-- Every nonempty list has an element minimizing `f`. -/
theorem exists_min_by {α : Type} (f : α → ℚ) :
    ∀ {l : List α}, l ≠ [] → ∃ x ∈ l, ∀ y ∈ l, f x ≤ f y := by
  intro l
  induction l with
  | nil => intro h; exact absurd rfl h
  | cons a as ih =>
    intro _
    cases has : as with
    | nil => exact ⟨a, List.mem_cons_self a _, by simp [has]⟩
    | cons b bs =>
      obtain ⟨x, hx, hmin⟩ := ih (by simp [has])
      rw [← has] at *
      by_cases hax : f a ≤ f x
      · refine ⟨a, List.mem_cons_self a _, ?_⟩
        intro y hy
        rcases List.mem_cons.mp hy with rfl | hy
        · exact le_refl _
        · exact le_trans hax (hmin y hy)
      · refine ⟨x, List.mem_cons_of_mem a hx, ?_⟩
        intro y hy
        rcases List.mem_cons.mp hy with rfl | hy
        · exact le_of_not_le hax
        · exact hmin y hy

/-- On a nonempty list, `idxminBy` returns a row. -/
theorem idxminBy_isSome {f : Record → ℚ} {l : List Record} (h : l ≠ []) :
    ∃ r, idxminBy f l = some r := by
  obtain ⟨x, hx, hmin⟩ := exists_min_by f h
  cases hfind : idxminBy f l with
  | some r => exact ⟨r, rfl⟩
  | none =>
    rw [idxminBy, List.find?_eq_none] at hfind
    exact absurd (List.all_eq_true.mpr fun y hy => decide_eq_true (hmin y hy))
      (hfind x hx)

/-- Specification of `idxminBy`: the returned row is in the list, attains
the minimum of `f`, and every row before it in input order is strictly
larger. -/
theorem idxminBy_spec {f : Record → ℚ} {l : List Record} {r : Record}
    (h : idxminBy f l = some r) :
    r ∈ l ∧ (∀ x ∈ l, f r ≤ f x) ∧
      ∃ l₁ l₂, l = l₁ ++ r :: l₂ ∧ ∀ x ∈ l₁, f r < f x := by
  have hmem : r ∈ l := List.mem_of_find?_eq_some h
  obtain ⟨hp, l₁, l₂, heq, hfail⟩ := find?_split h
  have hmin : ∀ x ∈ l, f r ≤ f x := by
    intro x hx
    exact of_decide_eq_true (List.all_eq_true.mp hp x hx)
  refine ⟨hmem, hmin, l₁, l₂, heq, ?_⟩
  intro x hx
  have hxl : x ∈ l := by rw [heq]; exact List.mem_append_left _ hx
  have : ¬ (∀ y ∈ l, f x ≤ f y) := by
    intro hall
    have := List.all_eq_true.mpr fun y hy => decide_eq_true (hall y hy)
    rw [hfail x hx] at this
    cases this
  push_neg at this
  obtain ⟨y, hy, hxy⟩ := this
  exact lt_of_le_of_lt (hmin y hy) hxy

/-- C2: for every scenario that has a decision-matrix entry and at least
one non-prefiltered record, the entry names the algorithm of a record
attaining the minimum `total_time_ms` among the scenario's non-prefiltered
records, and on ties the record appearing first in input row order wins. -/
theorem decision_entry_first_min (t : List Record) (s : String)
    (h : scenarioCandidates t s ≠ []) :
    ∃ r, r ∈ scenarioCandidates t s ∧
      bestAlgoFor t s = r.algorithm ∧
      (∀ x ∈ scenarioCandidates t s, r.totalTime ≤ x.totalTime) ∧
      (∃ l₁ l₂, scenarioCandidates t s = l₁ ++ r :: l₂ ∧
        ∀ x ∈ l₁, r.totalTime < x.totalTime) ∧
      (s ∈ scenarios_all t → (s, r.algorithm) ∈ decisionMatrix t) := by
  obtain ⟨r, hr⟩ := idxminBy_isSome (f := (·.totalTime)) h
  obtain ⟨hmem, hmin, hsplit⟩ := idxminBy_spec hr
  refine ⟨r, hmem, ?_, hmin, hsplit, ?_⟩
  · rw [bestAlgoFor, hr]
  · intro hs
    rw [decisionMatrix]
    refine List.mem_map.mpr ⟨s, hs, ?_⟩
    rw [bestAlgoFor, hr]

/-- Membership in `prefilterTuples` determines all components of the
tuple. -/
theorem mem_prefilterTuples {base : String} {t : List Record} {sz w wp g : ℚ}
    (h : (sz, w, wp, g) ∈ prefilterTuples base t) :
    w = withoutTimeAt (prefilter_data base t) sz ∧
    wp = withTimeAt (prefilter_data base t) sz ∧ g = gainPct w wp := by
  simp only [prefilterTuples, List.mem_map] at h
  obtain ⟨a, _, heq⟩ := h
  simp only [Prod.mk.injEq] at heq
  obtain ⟨e1, e2, e3, e4⟩ := heq
  subst e1; subst e2; subst e3; subst e4
  exact ⟨rfl, rfl, rfl⟩

/-- Claim C1: every emitted prefilter-impact tuple carries the gain
percentage `(without - with) / without * 100` when `without > 0` and `0`
when `without = 0`. -/
theorem gain_formula (base : String) (t : List Record) (sz w wp g : ℚ)
    (h : (sz, w, wp, g) ∈ prefilterTuples base t) :
    (0 < w → g = (w - wp) / w * 100) ∧ (w = 0 → g = 0) := by
  obtain ⟨-, -, hg⟩ := mem_prefilterTuples h
  subst hg
  constructor
  · intro h0; rw [gainPct, if_pos h0]
  · intro h0
    rw [gainPct, if_neg]
    rw [h0]
    exact lt_irrefl 0

/-- Witness for C1 on a concrete one-row table. -/
theorem gain_formula_witness :
    (((1:ℚ), (10:ℚ), (0:ℚ), (100:ℚ)) ∈ prefilterTuples "NFA" tblNfa) ∧
    (100:ℚ) = (10 - 0) / 10 * 100 := by
  have hm : ((1:ℚ), (10:ℚ), (0:ℚ), (100:ℚ)) ∈ prefilterTuples "NFA" tblNfa := by
    norm_num [prefilterTuples, prefilter_data, text_sizes, withoutTimeAt, withTimeAt,
      gainPct, meanOrZero, meanOpt, textSizeKB, hasPrefilter, strContains,
      listContainsSub, listStartsWith, tblNfa, mkRow, List.dedup, List.insertionSort,
      List.orderedInsert, List.filter, List.map]
  exact ⟨hm, (gain_formula "NFA" tblNfa 1 10 0 100 hm).1 (by norm_num)⟩

/-- Claim C7: for every emitted tuple with `without > 0`, the gain is
strictly positive iff the prefiltered mean is strictly below the
non-prefiltered mean. -/
theorem gain_sign_law (base : String) (t : List Record) (sz w wp g : ℚ)
    (h : (sz, w, wp, g) ∈ prefilterTuples base t) (hw : 0 < w) :
    0 < g ↔ wp < w := by
  obtain ⟨-, -, hg⟩ := mem_prefilterTuples h
  subst hg
  rw [gainPct, if_pos hw, div_mul_eq_mul_div, lt_div_iff₀ hw, zero_mul]
  constructor
  · intro hpos; linarith
  · intro hlt; linarith

/-- Witness for C7 on a concrete one-row table. -/
theorem gain_sign_law_witness :
    (((1:ℚ), (10:ℚ), (0:ℚ), (100:ℚ)) ∈ prefilterTuples "NFA" tblNfa) ∧
    ((0:ℚ) < 100 ↔ (0:ℚ) < 10) := by
  have hm : ((1:ℚ), (10:ℚ), (0:ℚ), (100:ℚ)) ∈ prefilterTuples "NFA" tblNfa := by
    norm_num [prefilterTuples, prefilter_data, text_sizes, withoutTimeAt, withTimeAt,
      gainPct, meanOrZero, meanOpt, textSizeKB, hasPrefilter, strContains,
      listContainsSub, listStartsWith, tblNfa, mkRow, List.dedup, List.insertionSort,
      List.orderedInsert, List.filter, List.map]
  exact ⟨hm, gain_sign_law "NFA" tblNfa 1 10 0 100 hm (by norm_num)⟩

/-- Witness for C2 on a concrete two-row tie. -/
theorem decision_entry_first_min_witness :
    scenarioCandidates tblTie "Short Literal - Small Text" ≠ [] ∧
    ∃ r, r ∈ scenarioCandidates tblTie "Short Literal - Small Text" ∧
      bestAlgoFor tblTie "Short Literal - Small Text" = r.algorithm ∧
      (∀ x ∈ scenarioCandidates tblTie "Short Literal - Small Text",
        r.totalTime ≤ x.totalTime) ∧
      (∃ l₁ l₂, scenarioCandidates tblTie "Short Literal - Small Text" =
          l₁ ++ r :: l₂ ∧ ∀ x ∈ l₁, r.totalTime < x.totalTime) ∧
      ("Short Literal - Small Text" ∈ scenarios_all tblTie →
        ("Short Literal - Small Text", r.algorithm) ∈ decisionMatrix tblTie) := by
  have hne : scenarioCandidates tblTie "Short Literal - Small Text" ≠ [] := by decide
  exact ⟨hne, decision_entry_first_min tblTie "Short Literal - Small Text" hne⟩

/-- Counterexample to C3 as stated: a one-row table whose only scenario
label contains "prefilter" has one distinct scenario value but an empty
decision matrix. -/
theorem decision_totality_counterexample :
    ((tblPrefScenario.map (fun r => r.scenario)).dedup).length = 1 ∧
    (decisionMatrix tblPrefScenario).length = 0 := by
  exact ⟨by decide, by decide⟩

/-- Claim C3 as amended: the decision matrix has exactly one entry per
distinct scenario label that does not contain "prefilter", and each entry
is either a winning algorithm of a candidate row or the "N/A" sentinel. -/
theorem decision_totality_amended (t : List Record) (s : String) :
    ((decisionMatrix t).length = (scenarios_all t).length) ∧
    (s ∈ scenarios_all t ↔
      (s ∈ t.map (fun r => r.scenario) ∧ strContains s "prefilter" = false)) ∧
    ((decisionMatrix t).countP (fun e => e.1 == s) =
      if s ∈ scenarios_all t then 1 else 0) ∧
    (∀ e ∈ decisionMatrix t,
      (scenarioCandidates t e.1 = [] ∧ e.2 = "N/A") ∨
      (∃ r ∈ scenarioCandidates t e.1, e.2 = r.algorithm)) := by
  have hnd : (scenarios_all t).Nodup :=
    List.Nodup.filter _ (List.nodup_dedup _)
  refine ⟨?_, ?_, ?_, ?_⟩
  · rw [decisionMatrix, List.length_map]
  · rw [scenarios_all, List.mem_filter, List.mem_dedup, Bool.not_eq_true']
  · rw [decisionMatrix, List.countP_map]
    have hc : ((fun e : String × String => e.1 == s) ∘
        fun s' => (s', bestAlgoFor t s')) = (· == s) := rfl
    rw [hc]
    by_cases hmem : s ∈ scenarios_all t
    · rw [if_pos hmem]
      exact List.count_eq_one_of_mem hnd hmem
    · rw [if_neg hmem]
      exact List.count_eq_zero_of_not_mem hmem
  · intro e he
    rw [decisionMatrix] at he
    obtain ⟨s', _, rfl⟩ := List.mem_map.mp he
    by_cases hcand : scenarioCandidates t s' = []
    · left
      refine ⟨hcand, ?_⟩
      show bestAlgoFor t s' = "N/A"
      rw [bestAlgoFor, hcand]
      rfl
    · right
      obtain ⟨r, hr⟩ := idxminBy_isSome (f := (·.totalTime)) hcand
      refine ⟨r, (idxminBy_spec hr).1, ?_⟩
      show bestAlgoFor t s' = r.algorithm
      rw [bestAlgoFor, hr]

/-- Witness for the amended C3 on a concrete table. -/
theorem decision_totality_amended_witness :
    ((decisionMatrix tblTie).length = (scenarios_all tblTie).length) ∧
    ("Short Literal - Small Text" ∈ scenarios_all tblTie ↔
      ("Short Literal - Small Text" ∈ tblTie.map (fun r => r.scenario) ∧
        strContains "Short Literal - Small Text" "prefilter" = false)) := by
  exact ⟨(decision_totality_amended tblTie "Short Literal - Small Text").1,
    (decision_totality_amended tblTie "Short Literal - Small Text").2.1⟩

/-- Claim C4: every distinct text size of the filtered subset yields an
emitted tuple, and a side with no records at that size contributes `0`. -/
theorem partial_pair (base : String) (t : List Record) (sz : ℚ)
    (h : sz ∈ text_sizes (prefilter_data base t)) :
    ((sz, withoutTimeAt (prefilter_data base t) sz,
        withTimeAt (prefilter_data base t) sz,
        gainPct (withoutTimeAt (prefilter_data base t) sz)
          (withTimeAt (prefilter_data base t) sz)) ∈ prefilterTuples base t) ∧
    (((prefilter_data base t).filter
        (fun r => decide (textSizeKB r = sz) && !(hasPrefilter r))) = [] →
      withoutTimeAt (prefilter_data base t) sz = 0) ∧
    (((prefilter_data base t).filter
        (fun r => decide (textSizeKB r = sz) && hasPrefilter r)) = [] →
      withTimeAt (prefilter_data base t) sz = 0) := by
  refine ⟨?_, ?_, ?_⟩
  · simp only [prefilterTuples]
    exact List.mem_map.mpr ⟨sz, h, rfl⟩
  · intro he
    rw [withoutTimeAt, he]
    rfl
  · intro he
    rw [withTimeAt, he]
    rfl

/-- Witness for C4: a table whose only record at text size 2 KB is
prefiltered still emits a tuple there, with the absent side equal to 0. -/
theorem partial_pair_witness :
    ((2:ℚ) ∈ text_sizes (prefilter_data "NFA" tblPrefOnly)) ∧
    withoutTimeAt (prefilter_data "NFA" tblPrefOnly) 2 = 0 := by
  have h : (2:ℚ) ∈ text_sizes (prefilter_data "NFA" tblPrefOnly) := by
    norm_num [text_sizes, prefilter_data, textSizeKB, strContains, listContainsSub,
      listStartsWith, tblPrefOnly, mkRow, List.dedup, List.insertionSort,
      List.orderedInsert, List.filter, List.map]
  refine ⟨h, (partial_pair "NFA" tblPrefOnly 2 h).2.1 ?_⟩
  norm_num [prefilter_data, textSizeKB, hasPrefilter, strContains, listContainsSub,
    listStartsWith, tblPrefOnly, mkRow, List.filter]

/-- Counterexample to C5 as stated: the requested pattern "abc" has no
matching KMP record, and the aggregated series entry is the `NaN` marker
`none`, not the value `0`. -/
theorem missing_group_counterexample :
    (((data_subset tblNoKmp).filter
        (fun r => r.pattern == "abc" && r.algorithm == "KMP")) = []) ∧
    kmp_times tblNoKmp = [none, none] ∧ ((none : Option ℚ) ≠ some 0) := by
  exact ⟨by decide, by decide, by decide⟩

/-- Claim C5 as amended: a requested group-key value with zero matching
records yields the `NaN` marker `none` in the aggregated series (pandas
mean of an empty selection), never an error; it is `0` only where the
script replaces `NaN` explicitly (the prefilter-impact path). -/
theorem missing_group_amended (t : List Record) (i j : ℕ) (p s algo : String) :
    (patterns_to_show[i]? = some p →
      ((data_subset t).filter (fun r => r.pattern == p && r.algorithm == "KMP")) = [] →
      (kmp_times t)[i]? = some none) ∧
    (scenarios_to_show[j]? = some s →
      ((data_nodes t).filter (fun r => r.scenario == s && r.algorithm == algo)) = [] →
      (nodes t algo)[j]? = some none) := by
  constructor
  · intro hp he
    rw [kmp_times, List.getElem?_map, hp, Option.map_some']
    rw [he]
    rfl
  · intro hs he
    rw [nodes, List.getElem?_map, hs, Option.map_some']
    rw [he]
    rfl

/-- Witness for the amended C5 on a concrete table with no KMP rows. -/
theorem missing_group_amended_witness :
    (kmp_times tblNoKmp)[0]? = some none := by
  exact (missing_group_amended tblNoKmp 0 0 "abc" "Short Literal - Small Text"
    "NFA").1 (by decide) (by decide)

/-- Counterexample to C6 as stated: when the prefilter-impact selector
yields zero rows, no tuple at all is emitted for that analysis — there is
no explicit NoData/0 sentinel entry. -/
theorem empty_selection_counterexample :
    prefilter_data "NFA" tblNoRegex = [] ∧
    prefilterTuples "NFA" tblNoRegex = [] := by
  exact ⟨by decide, by decide⟩

/-- Claim C6 as amended: an empty selection never aborts a derivation;
the decision matrix emits an explicit "N/A" sentinel entry, while the
prefilter-impact analysis emits no tuples at all for an empty selection. -/
theorem empty_selection_amended (base : String) (t : List Record) (s : String) :
    (prefilter_data base t = [] → prefilterTuples base t = []) ∧
    (s ∈ scenarios_all t → scenarioCandidates t s = [] →
      (s, "N/A") ∈ decisionMatrix t) := by
  constructor
  · intro h
    simp [prefilterTuples, text_sizes, h]
  · intro hs he
    rw [decisionMatrix]
    refine List.mem_map.mpr ⟨s, hs, ?_⟩
    have : bestAlgoFor t s = "N/A" := by
      rw [bestAlgoFor, he]
      rfl
    rw [this]

/-- Witness for the amended C6 on concrete tables. -/
theorem empty_selection_amended_witness :
    prefilterTuples "NFA" tblNoRegex = [] ∧
    ("Simple Regex - Dot", "N/A") ∈ decisionMatrix tblPrefOnly := by
  constructor
  · exact (empty_selection_amended "NFA" tblNoRegex "x").1 (by decide)
  · exact (empty_selection_amended "NFA" tblPrefOnly "Simple Regex - Dot").2
      (by decide) (by decide)

/-- Claim C8: the prefilter-impact tuples depend only on records whose
scenario label contains "Regex" and whose pattern is the fixed analysis
pattern "a.c"; restricting the input to those records changes nothing. -/
theorem prefilter_scope (base : String) (t : List Record) :
    prefilterTuples base t = prefilterTuples base
      (t.filter (fun r => strContains r.scenario "Regex"
        && r.pattern == test_pattern)) := by
  have hpd : prefilter_data base
      (t.filter (fun r => strContains r.scenario "Regex"
        && r.pattern == test_pattern)) = prefilter_data base t := by
    rw [prefilter_data, prefilter_data, List.filter_filter]
    apply List.filter_congr
    intro r _
    cases h1 : strContains r.scenario "Regex" <;>
      cases h2 : r.pattern == test_pattern <;>
        simp [h1, h2]
  simp only [prefilterTuples, hpd]

/-- Claim C9: the prefilter-impact analysis emits exactly one tuple per
distinct text size of its filtered subset, in strictly increasing order
of text size. -/
theorem one_tuple_per_size (base : String) (t : List Record) :
    ((prefilterTuples base t).map (fun q => q.1) =
      text_sizes (prefilter_data base t)) ∧
    List.Pairwise (· < ·) (text_sizes (prefilter_data base t)) ∧
    (∀ sz : ℚ, sz ∈ text_sizes (prefilter_data base t) ↔
      sz ∈ (prefilter_data base t).map textSizeKB) := by
  refine ⟨?_, ?_, ?_⟩
  · simp only [prefilterTuples, List.map_map]
    exact List.map_id' _
  · have hsorted : List.Sorted (· ≤ ·) (text_sizes (prefilter_data base t)) :=
      List.sorted_insertionSort _ _
    have hnodup : (text_sizes (prefilter_data base t)).Nodup :=
      ((List.perm_insertionSort _ _).nodup_iff).mpr (List.nodup_dedup _)
    exact List.Pairwise.imp (fun h => lt_of_le_of_ne h.1 h.2)
      (List.Pairwise.and hsorted hnodup)
  · intro sz
    rw [text_sizes, (List.perm_insertionSort _ _).mem_iff, List.mem_dedup]

/-- Claim C10: the structure-size comparison only aggregates records with
strictly positive structure size, so `0` "not measured" sentinel records
never contribute to any node-count mean. -/
theorem zero_size_excluded (t : List Record) :
    (∀ r ∈ structure_data t, 0 < r.structureSize) ∧
    (structure_data t =
      structure_data (t.filter (fun r => decide (0 < r.structureSize)))) ∧
    (∀ algo, nodes t algo =
      nodes (t.filter (fun r => decide (0 < r.structureSize))) algo) := by
  have hfil : structure_data (t.filter (fun r => decide (0 < r.structureSize))) =
      structure_data t := by
    rw [structure_data, structure_data, List.filter_filter]
    apply List.filter_congr
    intro r _
    cases h1 : decide (0 < r.structureSize) <;> simp [h1]
  refine ⟨?_, hfil.symm, ?_⟩
  · intro r hr
    rw [structure_data, List.mem_filter] at hr
    have h2 := hr.2
    simp only [Bool.and_eq_true] at h2
    exact of_decide_eq_true h2.1.2
  · intro algo
    simp only [nodes, data_nodes, hfil]

/-- Witness for C10 on a concrete table mixing a measured structure size
with the `0` sentinel. -/
theorem zero_size_excluded_witness :
    rowStruct ∈ structure_data tblStruct ∧ (0:ℚ) < rowStruct.structureSize := by
  have hm : rowStruct ∈ structure_data tblStruct := by decide
  exact ⟨hm, (zero_size_excluded tblStruct).1 rowStruct hm⟩
